import Mathlib

/-!
Verification model of the client-side router in `src/app/utils/router.js`
of the Real Estate SaaS admin dashboard.  Pure string and list functions
are translated directly from the JavaScript; the stateful dispatcher
(`handleRouteChange`) is modelled as a fuelled state-transition function
producing an event trace.  Middlewares and route handlers are modelled as
pure functions that may return a JavaScript value or throw an error
(`Except`); handler-initiated re-navigation is outside the scope of the
claims and is not modelled.
-/

set_option autoImplicit false

namespace RouterSpec

/-! ### Pattern compilation: `Router.pathToRegex` (router.js lines 199-207)

The JavaScript first escapes the regex metacharacters — the character
class containing dot, star, plus, question mark, caret, dollar, both
braces, both parentheses, pipe, both square brackets and backslash —
by prepending a backslash to each occurrence, and then rewrites
parameter segments with a global replace of the regex
"backslash colon, then one-or-more non-slash captured" by the group
`([^/]+)`, finally anchoring the whole source with caret and dollar.
We model the compiled regular expression as a token list: after this
pipeline the only constructs that can occur are (escaped) literal
characters and the group `([^/]+)`; full-match semantics over the token
list coincides with the anchored JavaScript regex. -/

/-- The escaping step's metacharacter class. -/
def isRegexMeta (c : Char) : Bool :=
  c = '.' || c = '*' || c = '+' || c = '?' || c = '^' || c = '$' ||
  c = '\x7b' || c = '\x7d' || c = '(' || c = ')' || c = '|' ||
  c = '[' || c = ']' || c = '\\'

/-- `path.replace` with the metacharacter class and replacement
backslash-match: prepend a backslash to every metacharacter. -/
def escapeChars : List Char → List Char
  | [] => []
  | c :: rest =>
      if isRegexMeta c then '\\' :: c :: escapeChars rest
      else c :: escapeChars rest

/-- The seven characters of the capture group `([^/]+)` inserted by the
parameter-replacement step. -/
def grpChars : List Char := ['(', '[', '^', '/', ']', '+', ')']

/-- One pass of the global replace of "backslash, colon, one-or-more
non-slash (greedy)" by `([^/]+)`, scanning left to right exactly as the
JavaScript regex engine does.  Fuelled to keep the recursion structural;
`replParams` supplies enough fuel. -/
def replParamsAux : Nat → List Char → List Char
  | 0, cs => cs
  | _ + 1, [] => []
  | fuel + 1, '\\' :: ':' :: rest =>
      let run := rest.takeWhile (fun c => c ≠ '/')
      if run.isEmpty then '\\' :: ':' :: replParamsAux fuel rest
      else grpChars ++ replParamsAux fuel (rest.dropWhile (fun c => c ≠ '/'))
  | fuel + 1, c :: rest => c :: replParamsAux fuel rest

/-- `escaped.replace` of the parameter regex by the capture group, applied
globally. -/
def replParams (cs : List Char) : List Char :=
  replParamsAux cs.length cs

/-- A token of a compiled route regex: a literal character, or the
single-segment capture group `([^/]+)`. -/
inductive RTok where
  | lit (c : Char)
  | grp
  deriving DecidableEq, Repr

/-- Read the compiled regex source back into tokens.  In sources produced
by the escaping/replacement pipeline, a backslash always escapes the next
character and an unescaped opening parenthesis only occurs as the start
of the seven-character group `([^/]+)`. -/
def parseRT : List Char → List RTok
  | [] => []
  | '\\' :: c :: rest => RTok.lit c :: parseRT rest
  | '(' :: '[' :: '^' :: '/' :: ']' :: '+' :: ')' :: rest => RTok.grp :: parseRT rest
  | c :: rest => RTok.lit c :: parseRT rest

/-- `Router.pathToRegex`: escape, replace parameter segments, anchor.
The caret/dollar anchors are represented by the full-match semantics of
`rtMatch` below. -/
def pathToRegex (path : String) : List RTok :=
  parseRT (replParams (escapeChars path.toList))

/-- Try `f` at `k, k-1, ..., 1` and return the first `some` — the greedy
backtracking order of `[^/]+`. -/
def firstSomeDown {α : Type} (f : Nat → Option α) : Nat → Option α
  | 0 => none
  | k + 1 =>
      match f (k + 1) with
      | some v => some v
      | none => firstSomeDown f k

/-- Full-string matching of a compiled route regex, returning the list of
captured substrings on success.  The group `([^/]+)` consumes a longest
possible nonempty run of non-slash characters, backtracking to shorter
runs, exactly as the greedy JavaScript `[^/]+` does inside an anchored
regex. -/
def rtMatch : List RTok → List Char → Option (List (List Char))
  | [], cs => if cs.isEmpty then some [] else none
  | RTok.lit _ :: _, [] => none
  | RTok.lit c :: ts, d :: ds => if c = d then rtMatch ts ds else none
  | RTok.grp :: ts, cs =>
      firstSomeDown
        (fun k => (rtMatch ts (cs.drop k)).map (fun caps => cs.take k :: caps))
        ((cs.takeWhile (fun c => c ≠ '/')).length)

/-- `regex.test(path)` for a compiled route regex. -/
def rtTest (ts : List RTok) (s : String) : Bool :=
  (rtMatch ts s.toList).isSome

/-- Number of capture groups of a compiled route regex. -/
def countGroups (ts : List RTok) : Nat :=
  (ts.filter (fun t => t = RTok.grp)).length

/-! ### Parameter names: `Router.extractParamNames` (lines 214-217)

`path.match` with the global regex "colon, then one-or-more non-slash
captured", each match stripped of its leading colon. -/

/-- Fuelled scan for the global matches of the parameter-name regex. -/
def extractParamNamesAux : Nat → List Char → List String
  | 0, _ => []
  | _ + 1, [] => []
  | fuel + 1, ':' :: rest =>
      let run := rest.takeWhile (fun c => c ≠ '/')
      if run.isEmpty then extractParamNamesAux fuel rest
      else String.mk run :: extractParamNamesAux fuel (rest.dropWhile (fun c => c ≠ '/'))
  | fuel + 1, _ :: rest => extractParamNamesAux fuel rest

/-- `Router.extractParamNames`. -/
def extractParamNames (path : String) : List String :=
  extractParamNamesAux path.toList.length path.toList

example : pathToRegex "/dashboard" =
    [RTok.lit '/', RTok.lit 'd', RTok.lit 'a', RTok.lit 's', RTok.lit 'h',
     RTok.lit 'b', RTok.lit 'o', RTok.lit 'a', RTok.lit 'r', RTok.lit 'd'] := by
  decide

example : pathToRegex "/properties/:id" =
    [RTok.lit '/', RTok.lit 'p', RTok.lit 'r', RTok.lit 'o', RTok.lit 'p',
     RTok.lit 'e', RTok.lit 'r', RTok.lit 't', RTok.lit 'i', RTok.lit 'e',
     RTok.lit 's', RTok.lit '/', RTok.lit ':', RTok.lit 'i', RTok.lit 'd'] := by
  decide

example : extractParamNames "/properties/:id" = ["id"] := by decide

example : rtTest (pathToRegex "/properties/:id") "/properties/42" = false := by decide

example : rtTest (pathToRegex "/properties/:id") "/properties/:id" = true := by decide

example : rtMatch [RTok.lit '/', RTok.grp] "/ab".toList = some [['a', 'b']] := by decide

/-! ### Query-string parsing: `Router.parseQuery` (lines 257-266)

The JavaScript checks that `search` starts with a question mark, iterates
the pairs of `new URLSearchParams(search)` in order and assigns each into
a plain object, so a repeated key keeps its first position but its last
value.  `URLSearchParams` splits the string (minus the leading question
mark) on ampersands, drops empty chunks, splits each chunk at its first
equals sign (a bare key gets the empty value) and form-decodes key and
value (plus becomes space, percent-hex-hex becomes the coded character;
this model covers single-byte escapes). -/

/-- Value of a hexadecimal digit. -/
def hexVal (c : Char) : Option Nat :=
  if '0' ≤ c ∧ c ≤ '9' then some (c.toNat - '0'.toNat)
  else if 'a' ≤ c ∧ c ≤ 'f' then some (c.toNat - 'a'.toNat + 10)
  else if 'A' ≤ c ∧ c ≤ 'F' then some (c.toNat - 'A'.toNat + 10)
  else none

/-- Fuelled form decoding of one component: plus becomes space, a percent
sign followed by two hex digits becomes the coded character, everything
else (including a malformed percent escape) is kept as is. -/
def formDecodeAux : Nat → List Char → List Char
  | 0, cs => cs
  | _ + 1, [] => []
  | fuel + 1, '+' :: rest => ' ' :: formDecodeAux fuel rest
  | fuel + 1, '%' :: a :: b :: rest2 =>
      match hexVal a, hexVal b with
      | some ha, some hb => Char.ofNat (16 * ha + hb) :: formDecodeAux fuel rest2
      | _, _ => '%' :: formDecodeAux fuel (a :: b :: rest2)
  | fuel + 1, c :: rest => c :: formDecodeAux fuel rest

/-- Form decoding of one `URLSearchParams` component. -/
def formDecode (cs : List Char) : List Char :=
  formDecodeAux cs.length cs

/-- Split on ampersands, keeping empty chunks (filtered by the caller). -/
def splitAmpAux : List Char → List Char → List (List Char)
  | [], acc => [acc.reverse]
  | '&' :: rest, acc => acc.reverse :: splitAmpAux rest []
  | c :: rest, acc => splitAmpAux rest (c :: acc)

/-- `URLSearchParams` chunking: split on ampersands and drop empty chunks. -/
def splitAmp (cs : List Char) : List (List Char) :=
  (splitAmpAux cs []).filter (fun chunk => ¬ chunk.isEmpty)

/-- Split a chunk at its first equals sign; `none` when there is none. -/
def splitFirstEq : List Char → List Char × Option (List Char)
  | [] => ([], none)
  | c :: rest =>
      if c = '=' then ([], some rest)
      else
        let p := splitFirstEq rest
        (c :: p.1, p.2)

/-- One `URLSearchParams` entry: decoded key and decoded value, the value
being empty for a bare key. -/
def parsePair (chunk : List Char) : String × String :=
  let (k, v) := splitFirstEq chunk
  (String.mk (formDecode k), String.mk (formDecode (v.getD [])))

/-- The entries of `new URLSearchParams(search-minus-question-mark)` in
order. -/
def rawPairs (cs : List Char) : List (String × String) :=
  (splitAmp cs).map parsePair

/-- JavaScript object property assignment: an existing key keeps its
position and gets the new value, a new key is appended. -/
def objSet (obj : List (String × String)) (k v : String) : List (String × String) :=
  if obj.any (fun p => p.1 = k) then
    obj.map (fun p => if p.1 = k then (k, v) else p)
  else obj ++ [(k, v)]

/-- Reading a property of the query object. -/
def objGet (obj : List (String × String)) (k : String) : Option String :=
  (obj.find? (fun p => p.1 = k)).map (fun p => p.2)

/-- `Router.parseQuery`. -/
def parseQuery (search : String) : List (String × String) :=
  match search.toList with
  | '?' :: rest => (rawPairs rest).foldl (fun q p => objSet q p.1 p.2) []
  | _ => []

example : parseQuery "?a=1&a=2&b=" = [("a", "2"), ("b", "")] := by decide

example : parseQuery "" = [] := by decide

example : parseQuery "?x=a+b%21" = [("x", "a b!")] := by decide

/-! ### Routes and the route table (lines 41-52, 243-250)

`addRoute` stores the route record in a `Map` keyed by the pattern
string: registering an already-present pattern replaces the stored record
but keeps the pattern's original position in the insertion order.  The
`options` argument is never consulted by the router logic and is omitted.
`findRoute` iterates the map's values in insertion order and returns the
first route whose regex accepts the path. -/

/-- A JavaScript error value, kept opaque. -/
abbrev JsError := String

/-- The JavaScript values a middleware can return, as far as the strict
`=== false` check distinguishes them. -/
inductive JsRet where
  | jsFalse
  | jsTrue
  | jsUndefined
  | jsNull
  | jsZero
  | jsOther
  deriving DecidableEq, Repr

/-- The navigation context handed to middlewares and handlers.  Parameter
values are `Option String` because the JavaScript can assign `undefined`
(modelled as `none`) when a capture is missing.  The `hash`, `state` and
self-referential `router` fields play no role in the claims and are
omitted. -/
structure Ctx where
  path : String
  search : String
  params : List (String × Option String)
  query : List (String × String)

/-- A route handler: may finish normally or throw. -/
abbrev Handler := Ctx → Except JsError Unit

/-- A middleware: may return a JavaScript value or throw. -/
abbrev Middleware := Ctx → Except JsError JsRet

/-- A registered route record. -/
structure Route where
  path : String
  handler : Handler
  regex : List RTok
  params : List String

/-- The route record built by `addRoute`. -/
def mkRoute (path : String) (handler : Handler) : Route :=
  { path := path
    handler := handler
    regex := pathToRegex path
    params := extractParamNames path }

/-- `routes.set(path, route)` on the insertion-ordered `Map`. -/
def setRoute (routes : List Route) (r : Route) : List Route :=
  if routes.any (fun r0 => r0.path = r.path) then
    routes.map (fun r0 => if r0.path = r.path then r else r0)
  else routes ++ [r]

/-- `Router.addRoute`. -/
def addRoute (routes : List Route) (path : String) (handler : Handler) : List Route :=
  setRoute routes (mkRoute path handler)

/-- `Router.findRoute`: first match in insertion order. -/
def findRoute (routes : List Route) (path : String) : Option Route :=
  routes.find? (fun r => rtTest r.regex path)

/-- `Router.extractParams`: align capture values with the parameter
names; a parameter beyond the captures gets `undefined` (`none`). -/
def extractParams (r : Route) (path : String) : List (String × Option String) :=
  match rtMatch r.regex path.toList with
  | none => []
  | some caps =>
      r.params.enum.map (fun p => (p.2, (caps.get? p.1).map String.mk))

/-! ### The dispatcher: `Router.handleRouteChange` (lines 114-156),
`Router.handle404` (lines 272-295), `Router.navigate` (lines 69-79)

The dispatcher is modelled as a state-transition function that also
returns a trace of the observable actions it performs (history updates,
handler invocations, rendering the not-found or error view).  The
`basePath` is its default, the empty string, under which the JavaScript
`pathname.replace(basePath, forNothing) or-else slash` normalization
reduces to "empty pathname becomes slash".  `handle404` re-enters the
dispatcher through `replace`/`navigate`, so the model carries fuel; the
re-entry depth is bounded because the redirect target is the default
landing path, for which `handle404` never redirects again. -/

/-- The current-route record `\x7b ...context, route \x7d`. -/
structure CurrentRoute where
  ctx : Ctx
  route : Route

/-- A browser location (hash omitted; it plays no role in the claims). -/
structure Loc where
  pathname : String
  search : String

/-- Observable actions of one dispatch. -/
inductive Ev where
  | pushNav (path : String)
  | replaceNav (path : String)
  | handlerRun (pattern : String)
  | show404
  | showError (e : JsError)
  deriving DecidableEq, Repr

/-- Router state: route table, middleware list, current route, location
and a history stack (top last). -/
structure RouterState where
  routes : List Route
  middlewares : List Middleware
  currentRoute : Option CurrentRoute
  location : Loc
  history : List String

/-- The normalized path read at the start of a dispatch. -/
def normPath (loc : Loc) : String :=
  if loc.pathname = "" then "/" else loc.pathname

/-- The fresh `NavigationContext` built at the start of a dispatch
(`params` still empty). -/
def mkCtx (loc : Loc) : Ctx :=
  { path := normPath loc
    search := loc.search
    params := []
    query := parseQuery loc.search }

/-- Outcome of the middleware loop. -/
inductive MwOut where
  | passed
  | blocked
  | errored (e : JsError)

/-- The middleware loop: run in registration order, stop at the first
strict-`false` return or the first thrown error. -/
def runMws : List Middleware → Ctx → MwOut
  | [], _ => MwOut.passed
  | m :: ms, ctx =>
      match m ctx with
      | Except.error e => MwOut.errored e
      | Except.ok JsRet.jsFalse => MwOut.blocked
      | Except.ok _ => runMws ms ctx

/-- `history.replaceState`: replace the top entry (or push onto an empty
stack). -/
def replaceTop (h : List String) (p : String) : List String :=
  h.dropLast ++ [p]

/-- `Router.handleRouteChange`, fuelled.  A middleware returning strict
`false` aborts silently; a thrown error anywhere in the body is caught
and routed to `handleError` (which renders the error view but does not
change router state); a matched route first overwrites `currentRoute`
and then runs the handler; an unmatched path other than the root and the
default landing path re-enters the dispatcher through
`replace(defaultPath)`, otherwise the not-found view is rendered. -/
def dispatch : Nat → RouterState → RouterState × List Ev
  | 0, st => (st, [])
  | fuel + 1, st =>
      let ctx := mkCtx st.location
      match runMws st.middlewares ctx with
      | MwOut.blocked => (st, [])
      | MwOut.errored e => (st, [Ev.showError e])
      | MwOut.passed =>
          match findRoute st.routes ctx.path with
          | some route =>
              let ctx2 := { ctx with params := extractParams route ctx.path }
              let st2 := { st with currentRoute := some { ctx := ctx2, route := route } }
              match route.handler ctx2 with
              | Except.ok _ => (st2, [Ev.handlerRun route.path])
              | Except.error e => (st2, [Ev.handlerRun route.path, Ev.showError e])
          | none =>
              if ctx.path ≠ "/" ∧ ctx.path ≠ "/dashboard" then
                let st2 := { st with
                  location := { pathname := "/dashboard", search := "" }
                  history := replaceTop st.history "/dashboard" }
                let res := dispatch fuel st2
                (res.1, Ev.replaceNav "/dashboard" :: res.2)
              else
                (st, [Ev.show404])

/-- `Router.navigate`: update the history entry and the location, then
dispatch. -/
def navigate (fuel : Nat) (st : RouterState) (path : String) (replace : Bool) :
    RouterState × List Ev :=
  let st2 := { st with
    location := { pathname := path, search := "" }
    history := if replace then replaceTop st.history path else st.history ++ [path] }
  let res := dispatch fuel st2
  (res.1, (if replace then Ev.replaceNav path else Ev.pushNav path) :: res.2)

/-- The JavaScript values `isCurrentRoute` can produce. -/
inductive JsVal where
  | jsNull
  | jsBool (b : Bool)
  deriving DecidableEq, Repr

/-- `Router.isCurrentRoute` (lines 334-336): the JavaScript expression
`this.currentRoute and-then this.currentRoute.path strict-equals path`
evaluates to `null` when no route has been dispatched yet, and otherwise
to the boolean comparison of the stored context path. -/
def isCurrentRoute (st : RouterState) (path : String) : JsVal :=
  match st.currentRoute with
  | none => JsVal.jsNull
  | some cr => JsVal.jsBool (cr.ctx.path = path)

/-- `Router.getCurrentRoute` (lines 325-327). -/
def getCurrentRoute (st : RouterState) : Option CurrentRoute :=
  st.currentRoute

/-- A router state as freshly constructed: no routes, no middlewares, no
current route. -/
def initState (loc : Loc) : RouterState :=
  { routes := []
    middlewares := []
    currentRoute := none
    location := loc
    history := [loc.pathname] }

/-- A handler that finishes normally. -/
def okHandler : Handler := fun _ => Except.ok ()

/-- A handler that throws. -/
def errHandler (e : JsError) : Handler := fun _ => Except.error e

/-! ### Lemmas about the query object -/

/-- Left-biased choice on `Option`. -/
def oor {α : Type} : Option α → Option α → Option α
  | some a, _ => some a
  | none, b => b

@[simp] theorem oor_none_left {α : Type} (b : Option α) : oor none b = b := rfl

@[simp] theorem oor_some_left {α : Type} (a : α) (b : Option α) :
    oor (some a) b = some a := rfl

@[simp] theorem oor_none_right {α : Type} (a : Option α) : oor a none = a := by
  cases a <;> rfl

theorem oor_assoc {α : Type} (a b c : Option α) :
    oor (oor a b) c = oor a (oor b c) := by
  cases a <;> rfl

/-- The value of the last occurrence of key `q` in a pair list. -/
def lastVal (ps : List (String × String)) (q : String) : Option String :=
  ps.foldl (fun acc p => if p.1 = q then some p.2 else acc) none

theorem find?_map_keep (obj : List (String × String)) (k v q : String) (hqk : q ≠ k) :
    ((obj.map (fun p => if p.1 = k then (k, v) else p)).find? (fun p => p.1 = q))
      = obj.find? (fun p => p.1 = q) := by
  induction obj with
  | nil => rfl
  | cons p obj ih =>
      by_cases hpk : p.1 = k
      · have hh : ¬ ((k, v).1 = q) := fun h => hqk h.symm
        have hh2 : ¬ (p.1 = q) := fun h => hqk (hpk ▸ h).symm
        simp only [List.map_cons, hpk, if_pos, List.find?_cons]
        simp only [decide_eq_true_eq] at *
        simp [hh, hh2, ih]
      · simp only [List.map_cons, if_neg hpk, List.find?_cons]
        by_cases hpq : p.1 = q
        · simp [hpq]
        · simp [hpq, ih]

theorem find?_map_hit (obj : List (String × String)) (k v : String)
    (h : obj.any (fun p => p.1 = k)) :
    ((obj.map (fun p => if p.1 = k then (k, v) else p)).find? (fun p => p.1 = k))
      = some (k, v) := by
  induction obj with
  | nil => simp at h
  | cons p obj ih =>
      by_cases hpk : p.1 = k
      · simp [hpk, List.find?_cons]
      · have h' : obj.any (fun p => p.1 = k) := by
          simp only [List.any_cons, hpk] at h
          simpa using h
        simp [hpk, List.find?_cons, ih h']

theorem objGet_objSet (obj : List (String × String)) (k v q : String) :
    objGet (objSet obj k v) q = if q = k then some v else objGet obj q := by
  unfold objSet objGet
  by_cases hany : obj.any (fun p => p.1 = k)
  · simp only [hany, if_pos]
    by_cases hq : q = k
    · subst hq
      rw [find?_map_hit obj q v hany]
      simp
    · rw [find?_map_keep obj k v q hq]
      simp [hq]
  · simp only [hany, if_neg, Bool.not_eq_true]
    rw [List.find?_append]
    by_cases hq : q = k
    · subst hq
      have hnone : obj.find? (fun p => p.1 = q) = none := by
        rw [List.find?_eq_none]
        intro p hp
        simp only [decide_eq_true_eq]
        intro hpq
        have : obj.any (fun p => p.1 = q) := by
          rw [List.any_eq_true]
          exact ⟨p, hp, by simp [hpq]⟩
        exact hany this
      simp [hnone, List.find?_cons]
    · have hkq : decide (k = q) = false := by
        simp only [decide_eq_false_iff_not]
        exact fun h => hq h.symm
      have htail : List.find? (fun p => p.1 = q) [(k, v)] = none := by
        simp [List.find?_cons, hkq]
      simp [htail, hq]

/-- A last-wins fold from any accumulator factors through the fold from
`none`. -/
theorem lastVal_foldl (q : String) (ps : List (String × String)) (a : Option String) :
    ps.foldl (fun acc p => if p.1 = q then some p.2 else acc) a
      = oor (lastVal ps q) a := by
  induction ps generalizing a with
  | nil => simp [lastVal]
  | cons p ps ih =>
      simp only [lastVal, List.foldl_cons] at *
      rw [ih, ih ((fun acc p => if p.1 = q then some p.2 else acc) none p)]
      rw [oor_assoc]
      by_cases hp : p.1 = q <;> simp [hp]

theorem objGet_foldl (ps : List (String × String)) (acc : List (String × String))
    (q : String) :
    objGet (ps.foldl (fun o p => objSet o p.1 p.2) acc) q
      = oor (lastVal ps q) (objGet acc q) := by
  induction ps generalizing acc with
  | nil => simp [lastVal]
  | cons p ps ih =>
      simp only [List.foldl_cons]
      rw [ih, objGet_objSet]
      have hlast : lastVal (p :: ps) q
          = oor (lastVal ps q) (if p.1 = q then some p.2 else none) := by
        have h2 := lastVal_foldl q ps (if p.1 = q then some p.2 else none)
        simp only [lastVal] at h2 ⊢
        simp only [List.foldl_cons]
        exact h2
      rw [hlast, oor_assoc]
      by_cases hp : p.1 = q
      · simp [hp]
      · have hq : ¬ (q = p.1) := fun h => hp h.symm
        simp [hp, hq]

theorem splitFirstEq_bare (chunk : List Char) (h : ∀ c ∈ chunk, c ≠ '=') :
    splitFirstEq chunk = (chunk, none) := by
  induction chunk with
  | nil => rfl
  | cons c rest ih =>
      have hc : c ≠ '=' := h c (by simp)
      have hr : ∀ c' ∈ rest, c' ≠ '=' := fun c' hc' => h c' (by simp [hc'])
      simp [splitFirstEq, hc, ih hr]

/-- C8: `parseQuery` applied to the search string "?a=1&a=2&b=" yields
exactly the object binding a to "2" and b to the empty string; in
general the query object keeps only the last occurrence of a repeated
key, and a bare chunk with no equals sign parses to the empty string
value. -/
theorem parseQuery_props :
    parseQuery "?a=1&a=2&b=" = [("a", "2"), ("b", "")]
    ∧ (∀ (rest : List Char) (q : String),
        objGet (parseQuery (String.mk ('?' :: rest))) q = lastVal (rawPairs rest) q)
    ∧ (∀ chunk : List Char, (∀ c ∈ chunk, c ≠ '=') →
        parsePair chunk = (String.mk (formDecode chunk), "")) := by
  refine ⟨by decide, ?_, ?_⟩
  · intro rest q
    have hpq : parseQuery (String.mk ('?' :: rest))
        = (rawPairs rest).foldl (fun o p => objSet o p.1 p.2) [] := rfl
    rw [hpq, objGet_foldl]
    simp [objGet]
  · intro chunk h
    unfold parsePair
    rw [splitFirstEq_bare chunk h]
    rfl

theorem findRoute_cons_pos (r : Route) (rs : List Route) (p : String)
    (h : rtTest r.regex p = true) :
    findRoute (r :: rs) p = some r := by
  unfold findRoute
  exact List.find?_cons_of_pos _ (show (fun r => rtTest r.regex p) r = true from h)

theorem findRoute_cons_neg (r : Route) (rs : List Route) (p : String)
    (h : rtTest r.regex p = false) :
    findRoute (r :: rs) p = findRoute rs p := by
  unfold findRoute
  exact List.find?_cons_of_neg _
    (show ¬ ((fun r => rtTest r.regex p) r = true) from by simp [h])

/-- Closed instance of the general clauses of `parseQuery_props`. -/
theorem parseQuery_props_witness :
    objGet (parseQuery (String.mk ('?' :: "a=1&a=2&b=".toList))) "a"
      = lastVal (rawPairs "a=1&a=2&b=".toList) "a"
    ∧ parsePair ['b'] = ("b", "") := by
  constructor
  · exact parseQuery_props.2.1 "a=1&a=2&b=".toList "a"
  · have h := parseQuery_props.2.2 ['b'] (by decide)
    rw [h]
    decide

/-- C1: evaluation of the code at the failing input.  The compiled
matcher of the pattern "/properties/:id" rejects "/properties/42" (the
route table finds no route for it) and accepts only the literal path
"/properties/:id"; even on that literal match the parameter "id" is
bound to `undefined` because the matcher has no capture group. -/
theorem paramPattern_matches_literal_only :
    findRoute [mkRoute "/properties/:id" okHandler] "/properties/42" = none
    ∧ rtTest (mkRoute "/properties/:id" okHandler).regex "/properties/:id" = true
    ∧ extractParams (mkRoute "/properties/:id" okHandler) "/properties/:id"
        = [("id", none)] := by
  refine ⟨?_, by decide, by decide⟩
  unfold findRoute
  rw [List.find?_cons_of_neg _ (by decide), List.find?_nil]

/-- C2: evaluation of the code at the failing input.  For the pattern
"/properties/:id" the extracted parameter-name list has length one while
the compiled matcher has zero capture groups, because the
parameter-to-group replacement in `pathToRegex` searches for a
backslash-colon sequence that the escaping step never produces. -/
theorem paramNames_vs_groups :
    (mkRoute "/properties/:id" okHandler).params.length = 1
    ∧ countGroups (mkRoute "/properties/:id" okHandler).regex = 0 := by
  exact ⟨by decide, by decide⟩

/-- C6: route lookup is first-match over the insertion-ordered route
list: if every route registered before `rA` rejects the path and `rA`
accepts it, `findRoute` returns `rA` no matter where a second accepting
route `rB` sits after it; and `addRoute` with a fresh pattern appends,
so list order is registration order. -/
theorem findRoute_first_registered (l1 l2 l3 : List Route) (rA rB : Route) (p : String)
    (hskip : ∀ r ∈ l1, rtTest r.regex p = false)
    (hA : rtTest rA.regex p = true)
    (hB : rtTest rB.regex p = true) :
    findRoute (l1 ++ rA :: l2 ++ rB :: l3) p = some rA
    ∧ (∀ (rs : List Route) (q : String) (h : Handler),
        (∀ r ∈ rs, r.path ≠ q) → addRoute rs q h = rs ++ [mkRoute q h]) := by
  constructor
  · clear hB
    revert hskip
    induction l1 with
    | nil =>
        intro _
        simp only [List.nil_append]
        exact findRoute_cons_pos _ _ _ hA
    | cons r l1 ih =>
        intro hskip
        have h1 : rtTest r.regex p = false := hskip r (by simp)
        simp only [List.cons_append]
        rw [findRoute_cons_neg _ _ _ h1]
        exact ih (fun r' hr' => hskip r' (by simp [hr']))
  · intro rs q h hfresh
    have hany : rs.any (fun r0 => r0.path = q) = false := by
      rw [List.any_eq_false]
      intro r0 hr0
      simp [hfresh r0 hr0]
    unfold addRoute setRoute
    simp only [mkRoute]
    simp [hany]

/-- Closed instance of `findRoute_first_registered`: two routes whose
matchers both accept the path "x"; the first registered is returned. -/
theorem findRoute_first_registered_witness :
    findRoute [mkRoute "x" okHandler, Route.mk "y" okHandler [RTok.grp] []] "x"
      = some (mkRoute "x" okHandler) := by
  have h := findRoute_first_registered [] [] [] (mkRoute "x" okHandler)
      (Route.mk "y" okHandler [RTok.grp] []) "x"
      (by intro r hr; exact absurd hr (List.not_mem_nil r))
      (by decide) (by decide)
  simpa using h.1

/-- Routes untouched by the replacement map keep their records. -/
theorem map_replace_skip (rnew : Route) (l : List Route)
    (h : ∀ r ∈ l, r.path ≠ rnew.path) :
    l.map (fun r0 => if r0.path = rnew.path then rnew else r0) = l := by
  induction l with
  | nil => rfl
  | cons r l ih =>
      have hr : r.path ≠ rnew.path := h r (by simp)
      simp only [List.map_cons, if_neg hr]
      rw [ih (fun r' hr' => h r' (by simp [hr']))]

/-- C10: registering an already-present pattern replaces the stored
route in place: the table keeps its length, the pattern keeps its
original position in the insertion order, and the stored record becomes
the newly built one (new handler and matcher). -/
theorem addRoute_same_pattern_replaces (l1 l2 : List Route) (r0 : Route)
    (p : String) (h2 : Handler)
    (hr0 : r0.path = p)
    (h1 : ∀ r ∈ l1, r.path ≠ p)
    (hl2 : ∀ r ∈ l2, r.path ≠ p) :
    addRoute (l1 ++ r0 :: l2) p h2 = l1 ++ mkRoute p h2 :: l2 := by
  have hany : (l1 ++ r0 :: l2).any (fun r => r.path = p) = true := by
    rw [List.any_eq_true]
    exact ⟨r0, by simp, by simp [hr0]⟩
  unfold addRoute setRoute
  rw [if_pos (show ((l1 ++ r0 :: l2).any fun r => r.path = (mkRoute p h2).path) = true
    from by simpa [mkRoute] using hany)]
  rw [List.map_append, List.map_cons]
  rw [map_replace_skip (mkRoute p h2) l1 (by simpa [mkRoute] using h1)]
  rw [map_replace_skip (mkRoute p h2) l2 (by simpa [mkRoute] using hl2)]
  simp [mkRoute, hr0]

/-- Closed instance of `addRoute_same_pattern_replaces`: re-registering
the pattern "/b" swaps in the new record while keeping its position. -/
theorem addRoute_same_pattern_replaces_witness :
    addRoute [mkRoute "/a" okHandler, mkRoute "/b" okHandler] "/b" (errHandler "boom")
      = [mkRoute "/a" okHandler, mkRoute "/b" (errHandler "boom")] := by
  have h := addRoute_same_pattern_replaces [mkRoute "/a" okHandler] []
      (mkRoute "/b" okHandler) "/b" (errHandler "boom") rfl
      (by intro r hr; rw [List.mem_singleton] at hr; rw [hr]; decide)
      (by intro r hr; exact absurd hr (List.not_mem_nil r))
  simpa using h

/-! ### Dispatcher lemmas -/

@[simp] theorem mkCtx_path (loc : Loc) : (mkCtx loc).path = normPath loc := rfl

/-- A middleware that returns normally with a value other than strict
`false` on the given context. -/
def passes (m : Middleware) (ctx : Ctx) : Prop :=
  ∃ r, m ctx = Except.ok r ∧ r ≠ JsRet.jsFalse

theorem runMws_passed (ms : List Middleware) (ctx : Ctx)
    (h : ∀ m ∈ ms, passes m ctx) : runMws ms ctx = MwOut.passed := by
  induction ms with
  | nil => rfl
  | cons m ms ih =>
      obtain ⟨r, hr, hrf⟩ := h m (by simp)
      unfold runMws
      rw [hr]
      cases r
      · exact absurd rfl hrf
      all_goals exact ih (fun m' hm' => h m' (by simp [hm']))

theorem runMws_blocked (ms1 : List Middleware) (m : Middleware) (ms2 : List Middleware)
    (ctx : Ctx) (h1 : ∀ m' ∈ ms1, passes m' ctx)
    (h2 : m ctx = Except.ok JsRet.jsFalse) :
    runMws (ms1 ++ m :: ms2) ctx = MwOut.blocked := by
  induction ms1 with
  | nil =>
      rw [List.nil_append]
      unfold runMws
      rw [h2]
  | cons m' ms1 ih =>
      obtain ⟨r, hr, hrf⟩ := h1 m' (by simp)
      rw [List.cons_append]
      unfold runMws
      rw [hr]
      cases r
      · exact absurd rfl hrf
      all_goals exact ih (fun m0 hm0 => h1 m0 (by simp [hm0]))

theorem runMws_errored (ms1 : List Middleware) (m : Middleware) (ms2 : List Middleware)
    (ctx : Ctx) (e : JsError) (h1 : ∀ m' ∈ ms1, passes m' ctx)
    (h2 : m ctx = Except.error e) :
    runMws (ms1 ++ m :: ms2) ctx = MwOut.errored e := by
  induction ms1 with
  | nil =>
      rw [List.nil_append]
      unfold runMws
      rw [h2]
  | cons m' ms1 ih =>
      obtain ⟨r, hr, hrf⟩ := h1 m' (by simp)
      rw [List.cons_append]
      unfold runMws
      rw [hr]
      cases r
      · exact absurd rfl hrf
      all_goals exact ih (fun m0 hm0 => h1 m0 (by simp [hm0]))

/-- The context of a matched dispatch, with parameters filled in. -/
def matchedCtx (st : RouterState) (r : Route) : Ctx :=
  { mkCtx st.location with params := extractParams r (normPath st.location) }

/-- The state after a matched dispatch set `currentRoute` (done before
the handler is invoked). -/
def matchedState (st : RouterState) (r : Route) : RouterState :=
  { st with currentRoute := some { ctx := matchedCtx st r, route := r } }

/-- The state after `handle404` issued `replace(defaultPath)` and before
the re-entrant dispatch. -/
def redirState (st : RouterState) : RouterState :=
  { st with
    location := Loc.mk "/dashboard" ""
    history := replaceTop st.history "/dashboard" }

theorem dispatch_blocked (fuel : Nat) (st : RouterState)
    (h : runMws st.middlewares (mkCtx st.location) = MwOut.blocked) :
    dispatch (fuel + 1) st = (st, []) := by
  simp only [dispatch]
  rw [h]

theorem dispatch_errored (fuel : Nat) (st : RouterState) (e : JsError)
    (h : runMws st.middlewares (mkCtx st.location) = MwOut.errored e) :
    dispatch (fuel + 1) st = (st, [Ev.showError e]) := by
  simp only [dispatch]
  rw [h]

theorem dispatch_found_ok (fuel : Nat) (st : RouterState) (r : Route)
    (hmw : runMws st.middlewares (mkCtx st.location) = MwOut.passed)
    (hfr : findRoute st.routes (normPath st.location) = some r)
    (hh : r.handler (matchedCtx st r) = Except.ok ()) :
    dispatch (fuel + 1) st = (matchedState st r, [Ev.handlerRun r.path]) := by
  have hh' := hh
  simp only [matchedCtx, mkCtx] at hh'
  have hmw2 := hmw
  simp only [mkCtx] at hmw2
  simp only [dispatch, mkCtx, hfr, matchedState, matchedCtx]
  simp [hmw2, hh']

theorem dispatch_found_err (fuel : Nat) (st : RouterState) (r : Route) (e : JsError)
    (hmw : runMws st.middlewares (mkCtx st.location) = MwOut.passed)
    (hfr : findRoute st.routes (normPath st.location) = some r)
    (hh : r.handler (matchedCtx st r) = Except.error e) :
    dispatch (fuel + 1) st
      = (matchedState st r, [Ev.handlerRun r.path, Ev.showError e]) := by
  have hh' := hh
  simp only [matchedCtx, mkCtx] at hh'
  have hmw2 := hmw
  simp only [mkCtx] at hmw2
  simp only [dispatch, mkCtx, hfr, matchedState, matchedCtx]
  simp [hmw2, hh']

theorem dispatch_notfound_redirect (fuel : Nat) (st : RouterState)
    (hmw : runMws st.middlewares (mkCtx st.location) = MwOut.passed)
    (hfr : findRoute st.routes (normPath st.location) = none)
    (h1 : normPath st.location ≠ "/")
    (h2 : normPath st.location ≠ "/dashboard") :
    dispatch (fuel + 1) st
      = ((dispatch fuel (redirState st)).1,
          Ev.replaceNav "/dashboard" :: (dispatch fuel (redirState st)).2) := by
  have hmw2 := hmw
  simp only [mkCtx] at hmw2
  simp only [dispatch, mkCtx, hfr, redirState]
  simp only [hmw2]
  rw [if_pos ⟨h1, h2⟩]

theorem dispatch_notfound_404 (fuel : Nat) (st : RouterState)
    (hmw : runMws st.middlewares (mkCtx st.location) = MwOut.passed)
    (hfr : findRoute st.routes (normPath st.location) = none)
    (h : normPath st.location = "/" ∨ normPath st.location = "/dashboard") :
    dispatch (fuel + 1) st = (st, [Ev.show404]) := by
  have hmw2 := hmw
  simp only [mkCtx] at hmw2
  simp only [dispatch, mkCtx, hfr]
  simp only [hmw2]
  rw [if_neg (by rcases h with h | h <;> simp [h])]

/-! ### Claim theorems about the dispatcher -/

/-- C3: a middleware returning strict `false` aborts the dispatch: the
state — hence `getCurrentRoute()` — is unchanged and no handler,
not-found or error action happens (empty trace); by contrast, any
middleware chain whose members all return normally with any value other
than strict `false` (including `undefined`, `null` or `0`) lets the
dispatch proceed to an observable action (nonempty trace). -/
theorem middleware_false_aborts (fuel : Nat) (st : RouterState)
    (ms1 : List Middleware) (m : Middleware) (ms2 : List Middleware)
    (hsplit : st.middlewares = ms1 ++ m :: ms2)
    (h1 : ∀ m' ∈ ms1, passes m' (mkCtx st.location))
    (h2 : m (mkCtx st.location) = Except.ok JsRet.jsFalse) :
    dispatch (fuel + 1) st = (st, [])
    ∧ (∀ (fuel2 : Nat) (st2 : RouterState),
        (∀ m' ∈ st2.middlewares, passes m' (mkCtx st2.location)) →
        (dispatch (fuel2 + 1) st2).2 ≠ []) := by
  constructor
  · apply dispatch_blocked
    rw [hsplit]
    exact runMws_blocked ms1 m ms2 _ h1 h2
  · intro fuel2 st2 hp
    have hmw := runMws_passed st2.middlewares (mkCtx st2.location) hp
    cases hfr : findRoute st2.routes (normPath st2.location) with
    | none =>
        by_cases hd : normPath st2.location ≠ "/" ∧ normPath st2.location ≠ "/dashboard"
        · rw [dispatch_notfound_redirect fuel2 st2 hmw hfr hd.1 hd.2]
          simp
        · have hor : normPath st2.location = "/" ∨ normPath st2.location = "/dashboard" := by
            rcases not_and_or.mp hd with h | h
            · exact Or.inl (not_not.mp h)
            · exact Or.inr (not_not.mp h)
          rw [dispatch_notfound_404 fuel2 st2 hmw hfr hor]
          simp
    | some r =>
        cases hh : r.handler (matchedCtx st2 r) with
        | error e =>
            rw [dispatch_found_err fuel2 st2 r e hmw hfr hh]
            simp
        | ok u =>
            cases u
            rw [dispatch_found_ok fuel2 st2 r hmw hfr hh]
            simp

/-- A middleware that returns strict `false`. -/
def mwFalse : Middleware := fun _ => Except.ok JsRet.jsFalse

/-- A middleware that throws. -/
def mwThrow : Middleware := fun _ => Except.error "boom"

/-- A state whose single middleware vetoes every navigation. -/
def stMwFalse : RouterState :=
  { routes := []
    middlewares := [mwFalse]
    currentRoute := none
    location := Loc.mk "/x" ""
    history := ["/x"] }

/-- Closed instance of `middleware_false_aborts`. -/
theorem middleware_false_aborts_witness :
    dispatch 1 stMwFalse = (stMwFalse, []) := by
  exact (middleware_false_aborts 0 stMwFalse [] mwFalse [] rfl
    (by intro m hm; exact absurd hm (List.not_mem_nil m)) rfl).1

/-- C4: every exception thrown by a middleware or by the matched route
handler is caught at the dispatcher boundary and routed to the error
policy (`handleError`, the `showError` action); `navigate` always
returns normally, the error showing up only as that action, never as an
exception to the caller. -/
theorem dispatch_catches_exceptions (fuel : Nat) (st : RouterState) :
    (∀ (ms1 : List Middleware) (m : Middleware) (ms2 : List Middleware) (e : JsError),
        st.middlewares = ms1 ++ m :: ms2 →
        (∀ m' ∈ ms1, passes m' (mkCtx st.location)) →
        m (mkCtx st.location) = Except.error e →
        dispatch (fuel + 1) st = (st, [Ev.showError e]))
    ∧ (∀ (r : Route) (e : JsError),
        (∀ m' ∈ st.middlewares, passes m' (mkCtx st.location)) →
        findRoute st.routes (normPath st.location) = some r →
        r.handler (matchedCtx st r) = Except.error e →
        dispatch (fuel + 1) st
          = (matchedState st r, [Ev.handlerRun r.path, Ev.showError e]))
    ∧ (∀ (p : String) (e : JsError) (m : Middleware),
        st.middlewares = [m] →
        m (mkCtx (Loc.mk p "")) = Except.error e →
        navigate (fuel + 1) st p false
          = ({ st with location := Loc.mk p "", history := st.history ++ [p] },
              [Ev.pushNav p, Ev.showError e])) := by
  refine ⟨?_, ?_, ?_⟩
  · intro ms1 m ms2 e hsplit hp hm
    apply dispatch_errored
    rw [hsplit]
    exact runMws_errored ms1 m ms2 _ e hp hm
  · intro r e hp hfr hh
    exact dispatch_found_err fuel st r e (runMws_passed _ _ hp) hfr hh
  · intro p e m hsplit hm
    have hd : dispatch (fuel + 1)
        { st with location := Loc.mk p "", history := st.history ++ [p] }
        = ({ st with location := Loc.mk p "", history := st.history ++ [p] },
            [Ev.showError e]) := by
      apply dispatch_errored
      show runMws st.middlewares (mkCtx (Loc.mk p "")) = MwOut.errored e
      rw [hsplit]
      exact runMws_errored [] m [] _ e
        (by intro m' hm'; exact absurd hm' (List.not_mem_nil m')) hm
    show ((dispatch (fuel + 1)
        { st with location := Loc.mk p "", history := st.history ++ [p] }).1,
      Ev.pushNav p :: (dispatch (fuel + 1)
        { st with location := Loc.mk p "", history := st.history ++ [p] }).2) = _
    rw [hd]

/-- A state whose single middleware throws on every navigation. -/
def stMwThrow : RouterState :=
  { routes := []
    middlewares := [mwThrow]
    currentRoute := none
    location := Loc.mk "/x" ""
    history := ["/x"] }

/-- Closed instance of `dispatch_catches_exceptions`. -/
theorem dispatch_catches_exceptions_witness :
    dispatch 1 stMwThrow = (stMwThrow, [Ev.showError "boom"]) := by
  exact (dispatch_catches_exceptions 0 stMwThrow).1 [] mwThrow [] "boom" rfl
    (by intro m hm; exact absurd hm (List.not_mem_nil m)) rfl

/-- The dispatch of the default landing path never issues another
navigation: whatever the route table holds, its trace contains no
history update; and when the default path is unregistered it renders the
not-found view with the state unchanged. -/
theorem dashboard_no_nav (fuel : Nat) (st : RouterState)
    (hmw : st.middlewares = [])
    (hloc : st.location = Loc.mk "/dashboard" "") :
    (∀ q, Ev.replaceNav q ∉ (dispatch (fuel + 1) st).2)
    ∧ (∀ q, Ev.pushNav q ∉ (dispatch (fuel + 1) st).2)
    ∧ (findRoute st.routes "/dashboard" = none →
        dispatch (fuel + 1) st = (st, [Ev.show404])) := by
  have hmw2 : runMws st.middlewares (mkCtx st.location) = MwOut.passed := by
    rw [hmw]
    rfl
  have hnorm : normPath st.location = "/dashboard" := by
    rw [hloc]
    rfl
  cases hfr : findRoute st.routes (normPath st.location) with
  | none =>
      rw [dispatch_notfound_404 fuel st hmw2 hfr (Or.inr hnorm)]
      exact ⟨by simp, by simp, fun _ => rfl⟩
  | some r =>
      cases hh : r.handler (matchedCtx st r) with
      | error e =>
          rw [dispatch_found_err fuel st r e hmw2 hfr hh]
          refine ⟨by simp, by simp, fun hc => ?_⟩
          rw [hnorm] at hfr
          simp [hc] at hfr
      | ok u =>
          cases u
          rw [dispatch_found_ok fuel st r hmw2 hfr hh]
          refine ⟨by simp, by simp, fun hc => ?_⟩
          rw [hnorm] at hfr
          simp [hc] at hfr

/-- C5: dispatching an unmatched path other than the root and the
default landing path issues exactly one replace-navigation, to
"/dashboard", and no other navigation; if "/dashboard" is itself
unregistered the redirected dispatch renders the not-found view instead
of redirecting again (no loop); and an unmatched root or "/dashboard"
dispatch renders the not-found view with no redirect at all. -/
theorem unmatched_path_redirect_policy (fuel : Nat) (st : RouterState) (p : String)
    (hmw : st.middlewares = [])
    (hloc : st.location = Loc.mk p "")
    (hp0 : p ≠ "") (h1 : p ≠ "/") (h2 : p ≠ "/dashboard")
    (hnf : findRoute st.routes p = none) :
    ((dispatch (fuel + 2) st).2.count (Ev.replaceNav "/dashboard") = 1
      ∧ (∀ q, q ≠ "/dashboard" → (dispatch (fuel + 2) st).2.count (Ev.replaceNav q) = 0)
      ∧ (∀ q, (dispatch (fuel + 2) st).2.count (Ev.pushNav q) = 0))
    ∧ (findRoute st.routes "/dashboard" = none →
        dispatch (fuel + 2) st
          = (redirState st, [Ev.replaceNav "/dashboard", Ev.show404]))
    ∧ (∀ (fuel2 : Nat) (st2 : RouterState) (q : String),
        st2.middlewares = [] → st2.location = Loc.mk q "" →
        (q = "/" ∨ q = "/dashboard") → findRoute st2.routes q = none →
        dispatch (fuel2 + 1) st2 = (st2, [Ev.show404])) := by
  have hmw2 : runMws st.middlewares (mkCtx st.location) = MwOut.passed := by
    rw [hmw]
    rfl
  have hnorm : normPath st.location = p := by
    rw [hloc]
    simp [normPath, hp0]
  have hfr : findRoute st.routes (normPath st.location) = none := by
    rw [hnorm]
    exact hnf
  have hred : dispatch (fuel + 2) st
      = ((dispatch (fuel + 1) (redirState st)).1,
          Ev.replaceNav "/dashboard" :: (dispatch (fuel + 1) (redirState st)).2) :=
    dispatch_notfound_redirect (fuel + 1) st hmw2 hfr
      (by rw [hnorm]; exact h1) (by rw [hnorm]; exact h2)
  obtain ⟨hrep, hpush, h404⟩ := dashboard_no_nav fuel (redirState st)
      (by show st.middlewares = []; exact hmw) rfl
  refine ⟨⟨?_, ?_, ?_⟩, ?_, ?_⟩
  · rw [hred, List.count_cons]
    simp [List.count_eq_zero.mpr (hrep "/dashboard")]
  · intro q hq
    rw [hred, List.count_cons]
    have hne : ¬ (Ev.replaceNav "/dashboard" = Ev.replaceNav q) := by
      intro h
      cases h
      exact hq rfl
    simp [List.count_eq_zero.mpr (hrep q), hne]
  · intro q
    rw [hred, List.count_cons]
    simp [List.count_eq_zero.mpr (hpush q)]
  · intro hdn
    have hdn2 : findRoute (redirState st).routes "/dashboard" = none := hdn
    rw [hred, h404 hdn2]
  · intro fuel2 st2 q hm2 hl2 hq hf2
    have hmw3 : runMws st2.middlewares (mkCtx st2.location) = MwOut.passed := by
      rw [hm2]
      rfl
    have hnorm2 : normPath st2.location = q := by
      rw [hl2]
      rcases hq with rfl | rfl <;> rfl
    exact dispatch_notfound_404 fuel2 st2 hmw3
      (by rw [hnorm2]; exact hf2) (by rw [hnorm2]; exact hq)

/-- A state pointed at an unregistered path. -/
def stUnmatched : RouterState :=
  { routes := []
    middlewares := []
    currentRoute := none
    location := Loc.mk "/nope" ""
    history := ["/nope"] }

/-- Closed instance of `unmatched_path_redirect_policy`: with
"/dashboard" unregistered too, an unmatched dispatch redirects once and
then renders the not-found view. -/
theorem unmatched_path_redirect_policy_witness :
    dispatch 2 stUnmatched
      = (redirState stUnmatched, [Ev.replaceNav "/dashboard", Ev.show404]) := by
  exact (unmatched_path_redirect_policy 0 stUnmatched "/nope" rfl rfl
    (by decide) (by decide) (by decide) rfl).2.1 rfl

/-- The route record for the default landing path whose handler throws. -/
def boomRoute : Route := mkRoute "/dashboard" (errHandler "boom")

/-- A state whose only route is `boomRoute`, about to dispatch it. -/
def stBoom : RouterState :=
  { routes := [boomRoute]
    middlewares := []
    currentRoute := none
    location := Loc.mk "/dashboard" ""
    history := ["/dashboard"] }

/-- C7 counterexample: a dispatch whose matched handler throws still
overwrites `currentRoute` with the failed navigation record — the store
happens before the handler runs, so the claim that a failed dispatch
leaves `getCurrentRoute()` untouched is false on this input. -/
theorem handler_error_still_overwrites :
    stBoom.currentRoute = none
    ∧ (dispatch 1 stBoom).2 = [Ev.handlerRun "/dashboard", Ev.showError "boom"]
    ∧ ((dispatch 1 stBoom).1.currentRoute).map (fun cr => cr.ctx.path)
        = some "/dashboard" := by
  have hfr : findRoute stBoom.routes (normPath stBoom.location) = some boomRoute := by
    show findRoute [boomRoute] "/dashboard" = some boomRoute
    exact findRoute_cons_pos _ _ _ (by decide)
  have hd : dispatch 1 stBoom
      = (matchedState stBoom boomRoute,
          [Ev.handlerRun boomRoute.path, Ev.showError "boom"]) :=
    dispatch_found_err 0 stBoom boomRoute "boom" rfl hfr rfl
  refine ⟨rfl, ?_, ?_⟩
  · rw [hd]
    rfl
  · rw [hd]
    rfl

/-- C7 amended: `CurrentRoute` is overwritten on every dispatch whose
path matches a route — the record is stored just before the handler is
invoked, so a dispatch whose handler throws or rejects still leaves
`getCurrentRoute()` set to the failed navigation record; dispatches
stopped in the middleware phase (strict `false` return or a thrown
error) leave it unchanged. -/
theorem currentRoute_overwrite_policy (fuel : Nat) (st : RouterState) (r : Route)
    (hmw : runMws st.middlewares (mkCtx st.location) = MwOut.passed)
    (hfr : findRoute st.routes (normPath st.location) = some r) :
    getCurrentRoute (dispatch (fuel + 1) st).1
      = some { ctx := matchedCtx st r, route := r }
    ∧ (∀ (fuel2 : Nat) (st2 : RouterState),
        (runMws st2.middlewares (mkCtx st2.location) = MwOut.blocked
          ∨ (∃ e, runMws st2.middlewares (mkCtx st2.location) = MwOut.errored e)) →
        getCurrentRoute (dispatch (fuel2 + 1) st2).1 = getCurrentRoute st2) := by
  constructor
  · cases hh : r.handler (matchedCtx st r) with
    | error e =>
        rw [dispatch_found_err fuel st r e hmw hfr hh]
        rfl
    | ok u =>
        cases u
        rw [dispatch_found_ok fuel st r hmw hfr hh]
        rfl
  · intro fuel2 st2 h
    rcases h with hb | ⟨e, he⟩
    · rw [dispatch_blocked fuel2 st2 hb]
    · rw [dispatch_errored fuel2 st2 e he]

/-- Closed instance of `currentRoute_overwrite_policy` at the throwing
route: the overwrite is observable after the failed dispatch. -/
theorem currentRoute_overwrite_policy_witness :
    getCurrentRoute (dispatch 1 stBoom).1
      = some { ctx := matchedCtx stBoom boomRoute, route := boomRoute } := by
  have hfr : findRoute stBoom.routes (normPath stBoom.location) = some boomRoute := by
    show findRoute [boomRoute] "/dashboard" = some boomRoute
    exact findRoute_cons_pos _ _ _ (by decide)
  exact (currentRoute_overwrite_policy 0 stBoom boomRoute rfl hfr).1

/-- C9 counterexample: before any dispatch `isCurrentRoute` evaluates to
`null`, which is not a boolean — in particular not the `false` the
claim requires for the no-route-dispatched-yet case. -/
theorem isCurrentRoute_initial_null :
    isCurrentRoute (initState (Loc.mk "/x" "")) "/dashboard" = JsVal.jsNull
    ∧ JsVal.jsNull ≠ JsVal.jsBool false
    ∧ JsVal.jsNull ≠ JsVal.jsBool true :=
  ⟨rfl, by decide, by decide⟩

/-- The state `navigate(p)` hands to the dispatcher: location moved to
`p`, a new history entry pushed. -/
def navState (st : RouterState) (p : String) : RouterState :=
  { st with location := Loc.mk p "", history := st.history ++ [p] }

/-- C9 amended: `isCurrentRoute(path)` evaluates to the boolean `true`
immediately after a `navigate(path)` whose path matches a registered
route completes, and to the boolean `false` for any other path once a
dispatch has stored a current route; but before any dispatch it
evaluates to `null` (a falsy non-boolean) rather than `false`. -/
theorem isCurrentRoute_after_navigate (fuel : Nat) (st : RouterState)
    (p : String) (r : Route)
    (hmw : st.middlewares = [])
    (hp : p ≠ "")
    (hfr : findRoute st.routes p = some r) :
    isCurrentRoute (navigate (fuel + 1) st p false).1 p = JsVal.jsBool true
    ∧ (∀ q, q ≠ p →
        isCurrentRoute (navigate (fuel + 1) st p false).1 q = JsVal.jsBool false)
    ∧ (∀ (st2 : RouterState) (q : String),
        st2.currentRoute = none → isCurrentRoute st2 q = JsVal.jsNull) := by
  have hmwN : runMws (navState st p).middlewares (mkCtx (navState st p).location)
      = MwOut.passed := by
    show runMws st.middlewares (mkCtx (Loc.mk p "")) = MwOut.passed
    rw [hmw]
    rfl
  have hnormN : normPath (navState st p).location = p := by
    show normPath (Loc.mk p "") = p
    simp [normPath, hp]
  have hfrN : findRoute (navState st p).routes (normPath (navState st p).location)
      = some r := by
    rw [hnormN]
    exact hfr
  have hnav1 : (navigate (fuel + 1) st p false).1
      = (dispatch (fuel + 1) (navState st p)).1 := rfl
  have hcr : (dispatch (fuel + 1) (navState st p)).1.currentRoute
      = some { ctx := matchedCtx (navState st p) r, route := r } := by
    cases hh : r.handler (matchedCtx (navState st p) r) with
    | error e =>
        rw [dispatch_found_err fuel (navState st p) r e hmwN hfrN hh]
        rfl
    | ok u =>
        cases u
        rw [dispatch_found_ok fuel (navState st p) r hmwN hfrN hh]
        rfl
  have hpath : (matchedCtx (navState st p) r).path = p := hnormN
  refine ⟨?_, ?_, ?_⟩
  · rw [hnav1]
    simp [isCurrentRoute, hcr, hpath]
  · intro q hq
    rw [hnav1]
    have hne : ¬ (p = q) := fun h => hq h.symm
    simp [isCurrentRoute, hcr, hpath, hne]
  · intro st2 q h
    simp [isCurrentRoute, h]

/-- A state with the default landing route registered, before any
navigation. -/
def stNav : RouterState :=
  { routes := [mkRoute "/dashboard" okHandler]
    middlewares := []
    currentRoute := none
    location := Loc.mk "/x" ""
    history := ["/x"] }

/-- Closed instance of `isCurrentRoute_after_navigate`. -/
theorem isCurrentRoute_after_navigate_witness :
    isCurrentRoute (navigate 1 stNav "/dashboard" false).1 "/dashboard"
      = JsVal.jsBool true := by
  exact (isCurrentRoute_after_navigate 0 stNav "/dashboard"
    (mkRoute "/dashboard" okHandler) rfl (by decide)
    (findRoute_cons_pos _ _ _ (by decide))).1

end RouterSpec
